import Mathlib

/-!
Shallow embedding of the pg_vault shared-memory key-value store
(src/pg_vault.c) in Lean 4.

Modelling conventions:
- A C byte is a Nat; a fixed-size char array is a List Nat whose length is
  the declared array size.  A C string value is the prefix of such a field
  up to (excluding) the first zero byte.
- Caller-supplied text arguments (id, comment) are byte lists without the
  terminating zero; PostgreSQL text values contain no embedded zero bytes,
  which theorems assume explicitly where it matters.
- A bytea value is a varlena: a 4-byte length prefix followed by the
  payload bytes.  The numeric encoding of the length prefix is modelled in
  little-endian base 256; only its decoded value and its 4-byte width are
  ever used, matching VARSIZE_ANY / VARSIZE_ANY_EXHDR / VARDATA.
- memcpy into a fixed field overwrites a prefix of the field and keeps the
  remaining bytes (the field is NOT zeroed first, exactly as in C).  When
  the source is longer than the field, the resulting list is longer than
  the declared field size: a write past the end of the field.
- elog(ERROR) aborts the statement without touching the store, so each SQL
  function returns the post-call store paired with an optional error.
-/

set_option autoImplicit false
set_option maxRecDepth 100000

def MAX_ID_LENGTH : Nat := 64

def MAX_COMMENT_LENGTH : Nat := 255

def MAX_KEY_LENGTH : Nat := 1024

/-- Size of the 4-byte varlena length header (VARHDRSZ). -/
def VARHDRSZ : Nat := 4

/-- The C-string value held by a char-array field: its bytes up to the
first zero byte. -/
def cstring (bs : List Nat) : List Nat := bs.takeWhile (fun b => b ≠ 0)

/-- memcpy of all of src into the start of a fixed-size field dst: the
copied bytes replace a prefix of dst, the tail of dst is left as it was. -/
def memcpyField (dst src : List Nat) : List Nat :=
  src ++ dst.drop src.length

/-- The varlena representation of a bytea payload: 4 header bytes encoding
the payload length, then the payload bytes. -/
def varencode (payload : List Nat) : List Nat :=
  [payload.length % 256, payload.length / 256 % 256,
   payload.length / 65536 % 256, payload.length / 16777216 % 256] ++ payload

/-- Decode the payload length stored in a varlena length header
(VARSIZE_ANY_EXHDR of the stored bytes). -/
def vardecodeLen (bs : List Nat) : Nat :=
  match bs with
  | b0 :: b1 :: b2 :: b3 :: _ => b0 + b1 * 256 + b2 * 65536 + b3 * 16777216
  | _ => 0

/-- VARSIZE_ANY of a stored varlena: header plus payload length. -/
def varsizeAny (bs : List Nat) : Nat := VARHDRSZ + vardecodeLen bs

/-- The payload bytes of a stored varlena (VARDATA, VARSIZE_ANY_EXHDR
bytes after the header). -/
def vardata (bs : List Nat) : List Nat :=
  (bs.drop VARHDRSZ).take (vardecodeLen bs)

/-- One vault slot: struct VaultItemData, three fixed-size char arrays. -/
structure VaultItemData where
  id : List Nat
  comment : List Nat
  key : List Nat
  deriving Repr, DecidableEq

/-- An all-zero slot, as produced by memset 0. -/
def zeroItem : VaultItemData :=
  { id := List.replicate MAX_ID_LENGTH 0
    comment := List.replicate MAX_COMMENT_LENGTH 0
    key := List.replicate MAX_KEY_LENGTH 0 }

/-- The shared store: struct VaultInfoData (the LWLock handle is not
modelled; every operation below is the body of its critical section). -/
structure VaultInfoData where
  maxitems : Nat
  nitems : Nat
  items : List VaultItemData
  deriving Repr, DecidableEq

/-- The errors add_key can raise via elog(ERROR). -/
inductive AddError where
  | idTooLong
  | commentTooLong
  | keyTooLong
  | duplicate
  | vaultFull
  deriving Repr, DecidableEq

/-- The comment length check of add_key: comment may be absent; when
present, strlen(comment) >= MAX_COMMENT_LENGTH is rejected. -/
def commentTooLong : Option (List Nat) → Bool
  | none => false
  | some c => decide (MAX_COMMENT_LENGTH ≤ c.length)

/-- Writing the three fields of a new record into slot old, exactly as the
three memcpy calls of add_key: strlen(id) bytes of the id (no terminator),
VARSIZE_ANY(key) bytes of the varlena, strlen(comment) bytes of the
comment only when a comment was supplied.  Bytes of old beyond each copy
are left in place. -/
def writeItem (old : VaultItemData) (id payload : List Nat)
    (comment : Option (List Nat)) : VaultItemData :=
  { id := memcpyField old.id id
    comment := match comment with
               | none => old.comment
               | some c => memcpyField old.comment c
    key := memcpyField old.key (varencode payload) }

/-- add_key: validate field sizes (outside the lock), then under the lock
scan items[0..nitems) for a duplicate id, check capacity, and append the
record at items[nitems] only when the id is unique and the vault is not
full; errors are reported after the lock is released, duplicate first. -/
def add_key (v : VaultInfoData) (id payload : List Nat)
    (comment : Option (List Nat)) : VaultInfoData × Option AddError :=
  if MAX_ID_LENGTH ≤ id.length then (v, some AddError.idTooLong)
  else if commentTooLong comment then (v, some AddError.commentTooLong)
  else if MAX_KEY_LENGTH ≤ payload.length then (v, some AddError.keyTooLong)
  else
    let key_id_unique : Bool :=
      ! (v.items.take v.nitems).any (fun it => cstring it.id == id)
    let vault_is_full : Bool := decide (v.maxitems ≤ v.nitems)
    let v' : VaultInfoData :=
      if (!vault_is_full) && key_id_unique then
        { v with
          items := v.items.set v.nitems
                     (writeItem (v.items.getD v.nitems zeroItem) id payload comment)
          nitems := v.nitems + 1 }
      else v
    if !key_id_unique then (v', some AddError.duplicate)
    else if vault_is_full then (v', some AddError.vaultFull)
    else (v', none)

/-- Index of the first item of a slot list whose stored id matches the
supplied id (the break-on-first-match linear scans of delete_key,
lookup_key and the uniqueness scan of add_key). -/
def findMatch (id : List Nat) : List VaultItemData → Option Nat
  | [] => none
  | it :: its =>
      if cstring it.id == id then some 0
      else (findMatch id its).map (fun i => i + 1)

/-- The index delete_key and lookup_key find: first match among
items[0..nitems). -/
def findIdx (v : VaultInfoData) (id : List Nat) : Option Nat :=
  findMatch id (v.items.take v.nitems)

/-- delete_key: scan items[0..nitems) for the id; at the first match,
decrement nitems and memcpy the (old) last populated record over the
matched slot; without a match the store is returned unchanged and no
error is ever raised. -/
def delete_key (v : VaultInfoData) (id : List Nat) : VaultInfoData :=
  match findIdx v id with
  | none => v
  | some i =>
      { v with
        nitems := v.nitems - 1
        items := v.items.set i (v.items.getD (v.nitems - 1) zeroItem) }

/-- lookup_key: scan items[0..nitems) for the id under the shared lock; at
the first match copy VARSIZE_ANY bytes of the stored varlena out and
return its payload; otherwise return NULL. -/
def lookup_key (v : VaultInfoData) (id : List Nat) : Option (List Nat) :=
  match findIdx v id with
  | none => none
  | some i => some (vardata ((v.items.getD i zeroItem).key))

/-- The key-zeroing loop of vault_copy: memset items[i].key for every
i < n, leaving the slots from index n on exactly as copied. -/
def stripKeys : Nat → List VaultItemData → List VaultItemData
  | 0, its => its
  | _ + 1, [] => []
  | n + 1, it :: its =>
      { it with key := List.replicate MAX_KEY_LENGTH 0 } :: stripKeys n its

/-- vault_copy: bulk-copy the whole region, then zero the key field of
items[0..nitems).  The strip flag is accepted and ignored, exactly as in
the C function. -/
def vault_copy (v : VaultInfoData) (_strip_keys : Bool) : VaultInfoData :=
  { v with items := stripKeys v.nitems v.items }

/-- list_keys: take a vault_copy under the lock, then emit, for call
counters 0..nitems, the id and comment C strings of the copied slot; the
key column of every tuple is set to NULL (nulls[1] = true). -/
def list_keys (v : VaultInfoData) : List (List Nat × List Nat) :=
  let copy := vault_copy v true
  (List.range v.nitems).map (fun i =>
    let item := copy.items.getD i zeroItem
    (cstring item.id, cstring item.comment))

/-- delete_keys: zero nitems and every slot (all bytes of the region past
the nitems field), keeping the lock and maxitems. -/
def delete_keys (v : VaultInfoData) : VaultInfoData :=
  { v with
    nitems := 0
    items := List.replicate v.items.length zeroItem }

/-- The capacity computation of pgvault_shmem_startup:
(region size - offsetof(VaultInfoData, items)) / sizeof(VaultItemData),
in integer (floor) division. -/
def computeMaxitems (regionSize headerSize recordSize : Nat) : Nat :=
  (regionSize - headerSize) / recordSize

/-- A freshly initialized store: the whole region zeroed, count 0,
capacity n slots. -/
def initStore (n : Nat) : VaultInfoData :=
  { maxitems := n, nitems := 0, items := List.replicate n zeroItem }

/-- pgvault_shmem_startup: when ShmemInitStruct reports the segment as not
found, memset the region and set maxitems from the region and record
sizes; when it was already initialized, leave it exactly as found. -/
def pgvault_shmem_startup (found : Bool) (existing : VaultInfoData)
    (regionSize headerSize recordSize : Nat) : VaultInfoData :=
  if found then existing
  else initStore (computeMaxitems regionSize headerSize recordSize)

example : add_key (initStore 1) [97] [5] none =
    ({ maxitems := 1, nitems := 1,
       items := [writeItem zeroItem [97] [5] none] }, none) := by decide

example : lookup_key (add_key (initStore 1) [97] [5, 6] none).1 [97] =
    some [5, 6] := by decide

/-- The store after an add_key call (the post-call shared state, whether
or not an error was raised afterwards). -/
def addOk (v : VaultInfoData) (id payload : List Nat)
    (comment : Option (List Nat)) : VaultInfoData :=
  (add_key v id payload comment).1

/-- Whether an add_key call raised no error. -/
def addSucceeds (v : VaultInfoData) (id payload : List Nat)
    (comment : Option (List Nat)) : Bool :=
  match (add_key v id payload comment).2 with
  | none => true
  | some _ => false

/-- Pairwise distinctness of the stored identifiers of the populated
slots. -/
def distinctIds (v : VaultInfoData) : Prop :=
  (v.items.take v.nitems).Pairwise (fun a b => cstring a.id ≠ cstring b.id)

instance (v : VaultInfoData) : Decidable (distinctIds v) :=
  List.instDecidablePairwise _

/- Scenario for C1: on a fresh two-slot store, add id ab, add id xyz,
delete ab (swap-delete leaves slot 1 holding a stale copy of the xyz
record), then add id p into the stale slot. -/

def c1State1 : VaultInfoData := addOk (initStore 2) [97, 98] [1] none

def c1State2 : VaultInfoData := addOk c1State1 [120, 121, 122] [2] none

def c1State3 : VaultInfoData := delete_key c1State2 [97, 98]

def c1State4 : VaultInfoData := addOk c1State3 [112] [3] none

/-- C1: refuted on the code.  The claim says a successful
add(id, payload, comment) is always followed by lookup(id) returning the
payload, including when the written slot was left dirty by an earlier
delete.  In the scenario above every add succeeds (all inputs are valid,
ids distinct, capacity 2 suffices), yet after the last add the lookup of
id p returns nothing: add_key copies strlen(id) bytes without the
terminating zero over the stale id xyz, so the slot's stored identifier
becomes pyz. -/
theorem add_succeeds_but_lookup_misses :
    addSucceeds (initStore 2) [97, 98] [1] none = true ∧
    addSucceeds c1State1 [120, 121, 122] [2] none = true ∧
    addSucceeds c1State3 [112] [3] none = true ∧
    c1State4.nitems = 2 ∧
    lookup_key c1State4 [112] = none ∧
    cstring ((c1State4.items.getD 1 zeroItem).id) = [112, 121, 122] := by decide

/-- A payload of 1021 bytes: VARSIZE_ANY_EXHDR is 1021 < MAX_KEY_LENGTH,
but its varlena representation is 1025 bytes. -/
def c2Payload : List Nat := List.replicate 1021 7

/-- C2: refuted on the code.  add_key validates
VARSIZE_ANY_EXHDR(key) < MAX_KEY_LENGTH (the payload without its header)
but then copies VARSIZE_ANY(key) bytes (payload plus the 4-byte header)
into the 1024-byte key field.  A 1021-byte payload passes validation, the
add succeeds, and the written key data is 1025 bytes long: one byte past
the end of the fixed key field (in the model the field list grows beyond
its declared size; in C the byte lands outside items[0].key). -/
theorem add_key_writes_past_key_field :
    c2Payload.length < MAX_KEY_LENGTH ∧
    addSucceeds (initStore 1) [97] c2Payload none = true ∧
    ((addOk (initStore 1) [97] c2Payload none).items.getD 0 zeroItem).key.length
      = MAX_KEY_LENGTH + 1 ∧
    (varencode c2Payload).length = MAX_KEY_LENGTH + 1 := by decide

/- Scenario for C3: on a fresh two-slot store, add id a, add id xyz,
delete a (slot 0 now holds the xyz record, slot 1 a stale copy of it),
then add id xy.  The two bytes x y are copied over the stale bytes x y z,
so the stored identifier of slot 1 is again xyz. -/

def c3State1 : VaultInfoData := addOk (initStore 2) [97] [1] none

def c3State2 : VaultInfoData := addOk c3State1 [120, 121, 122] [2] none

def c3State3 : VaultInfoData := delete_key c3State2 [97]

def c3State4 : VaultInfoData := addOk c3State3 [120, 121] [3] none

/-- C3: refuted on the code.  The claim says every operation preserves
pairwise distinctness of the stored identifiers.  The state before the
last add is reachable (built above from a fresh store) and has distinct
stored ids; the add of the valid, not-currently-stored id xy succeeds,
and afterwards slots 0 and 1 both store the identifier xyz: add_key
copies the id without its terminator into a slot left dirty by the
earlier swap-delete. -/
theorem add_breaks_id_uniqueness :
    distinctIds c3State3 ∧
    addSucceeds c3State3 [120, 121] [3] none = true ∧
    c3State4.nitems = 2 ∧
    cstring ((c3State4.items.getD 0 zeroItem).id) = [120, 121, 122] ∧
    cstring ((c3State4.items.getD 1 zeroItem).id) = [120, 121, 122] ∧
    ¬ distinctIds c3State4 := by decide

/-- stripKeys leaves the id field of every slot unchanged. -/
theorem stripKeys_getD_id : ∀ (n : Nat) (l : List VaultItemData) (i : Nat),
    ((stripKeys n l).getD i zeroItem).id = (l.getD i zeroItem).id := by
  intro n l
  induction l generalizing n with
  | nil => intro i; cases n <;> rfl
  | cons it its ih =>
      intro i
      cases n with
      | zero => rfl
      | succ n =>
          cases i with
          | zero => rfl
          | succ i => simpa [stripKeys] using ih n i

/-- stripKeys leaves the comment field of every slot unchanged. -/
theorem stripKeys_getD_comment : ∀ (n : Nat) (l : List VaultItemData) (i : Nat),
    ((stripKeys n l).getD i zeroItem).comment = (l.getD i zeroItem).comment := by
  intro n l
  induction l generalizing n with
  | nil => intro i; cases n <;> rfl
  | cons it its ih =>
      intro i
      cases n with
      | zero => rfl
      | succ n =>
          cases i with
          | zero => rfl
          | succ i => simpa [stripKeys] using ih n i

/-- stripKeys zeroes the key field of every slot below the bound. -/
theorem stripKeys_getD_key_lt : ∀ (n : Nat) (l : List VaultItemData) (i : Nat),
    i < n → ((stripKeys n l).getD i zeroItem).key = List.replicate MAX_KEY_LENGTH 0 := by
  intro n l
  induction l generalizing n with
  | nil => intro i _; cases n <;> rfl
  | cons it its ih =>
      intro i hi
      cases n with
      | zero => exact absurd hi (Nat.not_lt_zero i)
      | succ n =>
          cases i with
          | zero => rfl
          | succ i => simpa [stripKeys] using ih n i (Nat.lt_of_succ_lt_succ hi)

/-- stripKeys copies every slot at or beyond the bound verbatim. -/
theorem stripKeys_getD_ge : ∀ (n : Nat) (l : List VaultItemData) (i : Nat),
    n ≤ i → (stripKeys n l).getD i zeroItem = l.getD i zeroItem := by
  intro n l
  induction l generalizing n with
  | nil => intro i _; cases n <;> rfl
  | cons it its ih =>
      intro i hi
      cases n with
      | zero => rfl
      | succ n =>
          cases i with
          | zero => exact absurd hi (by omega)
          | succ i => simpa [stripKeys] using ih n i (Nat.le_of_succ_le_succ hi)

/-- C7: confirmed.  Every item list_keys emits is exactly the id C string
and the comment C string of the corresponding record of the store: the
output is a function of the id and comment fields alone, so no payload
(key field) byte of any stored record appears in any emitted item, for
every store state, including states with non-empty payloads and slots
reused after deletes. -/
theorem list_keys_emits_only_id_and_comment (v : VaultInfoData) :
    list_keys v = (List.range v.nitems).map (fun i =>
      (cstring ((v.items.getD i zeroItem).id),
       cstring ((v.items.getD i zeroItem).comment))) := by
  simp only [list_keys, vault_copy]
  refine List.map_congr_left (fun i _ => ?_)
  rw [stripKeys_getD_id, stripKeys_getD_comment]

/-- C8: confirmed.  After delete_keys the count is 0, every record slot of
the region is zeroed, maxitems (the capacity) is untouched, and lookup of
any identifier whatsoever returns NULL. -/
theorem delete_keys_clears (v : VaultInfoData) :
    (delete_keys v).nitems = 0 ∧
    (delete_keys v).maxitems = v.maxitems ∧
    (delete_keys v).items = List.replicate v.items.length zeroItem ∧
    ∀ id, lookup_key (delete_keys v) id = none :=
  ⟨rfl, rfl, rfl, fun _ => rfl⟩

/-- C9: confirmed.  pgvault_shmem_startup with found = false produces a
region with capacity (regionSize - headerSize) / recordSize (integer,
hence floor, division), count 0 and all slots zeroed; with found = true
it returns the existing store completely unchanged. -/
theorem shmem_startup_first_and_subsequent (existing : VaultInfoData)
    (regionSize headerSize recordSize : Nat) :
    pgvault_shmem_startup false existing regionSize headerSize recordSize =
      { maxitems := (regionSize - headerSize) / recordSize,
        nitems := 0,
        items := List.replicate ((regionSize - headerSize) / recordSize) zeroItem } ∧
    pgvault_shmem_startup true existing regionSize headerSize recordSize = existing :=
  ⟨rfl, rfl⟩

/- Scenario for C10: add one record with secret payload byte 42, then
delete it; the swap-delete leaves the record bytes in slot 0 and sets
the count to 0, so the slot is beyond the redaction loop of vault_copy. -/

def c10State : VaultInfoData := delete_key (addOk (initStore 2) [97] [42] none) [97]

/-- C10: confirmed.  vault_copy with strip_keys = true zeroes the key
field of exactly the slots with index below nitems; every slot at or
beyond nitems is bulk-copied with its key bytes intact; and in the
concrete add-then-delete scenario above the snapshot has count 0 while
its slot 0 still holds the secret payload byte 42 of the deleted
record. -/
theorem vault_copy_strips_only_populated_slots :
    (∀ (v : VaultInfoData) (i : Nat), i < v.nitems →
       ((vault_copy v true).items.getD i zeroItem).key = List.replicate MAX_KEY_LENGTH 0) ∧
    (∀ (v : VaultInfoData) (i : Nat), v.nitems ≤ i →
       (vault_copy v true).items.getD i zeroItem = v.items.getD i zeroItem) ∧
    ((vault_copy c10State true).nitems = 0 ∧
     42 ∈ ((vault_copy c10State true).items.getD 0 zeroItem).key) := by
  refine ⟨fun v i hi => stripKeys_getD_key_lt v.nitems v.items i hi,
          fun v i hi => stripKeys_getD_ge v.nitems v.items i hi,
          by decide⟩

/-- Witness for C10: a store holding one record with payload byte 5 has
its slot 0 key zeroed in the snapshot, and its slot 1 (beyond the count)
copied verbatim. -/
theorem vault_copy_strips_only_populated_slots_witness :
    (0 < (addOk (initStore 2) [98] [5] none).nitems ∧
     ((vault_copy (addOk (initStore 2) [98] [5] none) true).items.getD 0 zeroItem).key
       = List.replicate MAX_KEY_LENGTH 0) ∧
    ((addOk (initStore 2) [98] [5] none).nitems ≤ 1 ∧
     (vault_copy (addOk (initStore 2) [98] [5] none) true).items.getD 1 zeroItem
       = (addOk (initStore 2) [98] [5] none).items.getD 1 zeroItem) :=
  ⟨⟨by decide,
    vault_copy_strips_only_populated_slots.1 (addOk (initStore 2) [98] [5] none) 0
      (by decide)⟩,
   ⟨by decide,
    vault_copy_strips_only_populated_slots.2.1 (addOk (initStore 2) [98] [5] none) 1
      (by decide)⟩⟩

/-- C4: confirmed.  First conjunct: whenever add_key reports any error
(length violation, duplicate, or full vault), the returned store is the
input store: no record slot was written and the count is unchanged.
Second conjunct: for inputs within the size bounds, an identifier already
stored in the scanned range always makes add_key fail with the duplicate
error and return the store unchanged. -/
theorem add_key_rejected_leaves_store_unmodified (v : VaultInfoData)
    (id payload : List Nat) (comment : Option (List Nat)) :
    (∀ e, (add_key v id payload comment).2 = some e →
       (add_key v id payload comment).1 = v) ∧
    (id.length < MAX_ID_LENGTH → commentTooLong comment = false →
     payload.length < MAX_KEY_LENGTH →
     (v.items.take v.nitems).any (fun it => cstring it.id == id) = true →
     add_key v id payload comment = (v, some AddError.duplicate)) := by
  constructor
  · intro e he
    by_cases h1 : MAX_ID_LENGTH ≤ id.length
    · simp [add_key, h1]
    · by_cases h2 : commentTooLong comment
      · simp [add_key, h1, h2]
      · by_cases h3 : MAX_KEY_LENGTH ≤ payload.length
        · simp [add_key, h1, h2, h3]
        · by_cases hu : (v.items.take v.nitems).any (fun it => cstring it.id == id)
          · simp [add_key, h1, h2, h3, hu]
          · by_cases hf : v.maxitems ≤ v.nitems
            · simp [add_key, h1, h2, h3, hu, hf]
            · simp [add_key, h1, h2, h3, hu, hf] at he
  · intro h1 h2 h3 hdup
    simp [add_key, Nat.not_le.mpr h1, h2, Nat.not_le.mpr h3, hdup]

/-- Witness for C4: on a one-slot store holding the identifier c, adding
the identifier c again is rejected as a duplicate and the store is
returned unchanged. -/
theorem add_key_rejected_witness :
    ((addOk (initStore 1) [99] [1] none).items.take
        (addOk (initStore 1) [99] [1] none).nitems).any
      (fun it => cstring it.id == [99]) = true ∧
    add_key (addOk (initStore 1) [99] [1] none) [99] [2] none
      = (addOk (initStore 1) [99] [1] none, some AddError.duplicate) ∧
    (add_key (addOk (initStore 1) [99] [1] none) [99] [2] none).1
      = addOk (initStore 1) [99] [1] none :=
  ⟨by decide,
   (add_key_rejected_leaves_store_unmodified (addOk (initStore 1) [99] [1] none)
      [99] [2] none).2 (by decide) (by decide) (by decide) (by decide),
   (add_key_rejected_leaves_store_unmodified (addOk (initStore 1) [99] [1] none)
      [99] [2] none).1 AddError.duplicate (by decide)⟩

/-- A first-match index is an index into the scanned list. -/
theorem findMatch_lt_length (id : List Nat) :
    ∀ (l : List VaultItemData) (i : Nat), findMatch id l = some i → i < l.length := by
  intro l
  induction l with
  | nil => intro i h; simp [findMatch] at h
  | cons it its ih =>
      intro i h
      by_cases hc : cstring it.id == id
      · simp [findMatch, hc] at h
        simp [← h]
      · simp [findMatch, hc] at h
        obtain ⟨j, hj, hji⟩ := h
        have := ih j hj
        simp [← hji, List.length_cons]
        omega

/-- C6: confirmed.  delete_key is a silent no-op (store unchanged, no
error path exists) when no populated record matches; when the first match
is at index i, the count drops by one, the capacity is unchanged, slot i
afterwards holds the record that was in the last populated slot, and
every other still-populated slot is untouched. -/
theorem delete_key_postcondition (v : VaultInfoData) (id : List Nat) :
    (findIdx v id = none → delete_key v id = v) ∧
    (∀ i, findIdx v id = some i →
       (delete_key v id).nitems = v.nitems - 1 ∧
       (delete_key v id).maxitems = v.maxitems ∧
       (delete_key v id).items.getD i zeroItem = v.items.getD (v.nitems - 1) zeroItem ∧
       (∀ j, j < v.nitems - 1 → j ≠ i →
          (delete_key v id).items.getD j zeroItem = v.items.getD j zeroItem)) := by
  constructor
  · intro h; simp [delete_key, h]
  · intro i hi
    have hlen : i < v.items.length := by
      have h := findMatch_lt_length id (v.items.take v.nitems) i hi
      simp [List.length_take] at h
      omega
    refine ⟨by simp [delete_key, hi], by simp [delete_key, hi], ?_, ?_⟩
    · simp only [delete_key, hi]
      rw [List.getD_eq_getElem?_getD, List.getElem?_set_eq_of_lt _ hlen,
        Option.getD_some]
    · intro j hj hne
      simp only [delete_key, hi]
      rw [List.getD_eq_getElem?_getD, List.getElem?_set_ne (Ne.symm hne),
        ← List.getD_eq_getElem?_getD]

/-- Witness for C6: deleting an absent identifier from a one-record store
changes nothing, and deleting the present identifier leaves count 0. -/
theorem delete_key_postcondition_witness :
    (findIdx (addOk (initStore 1) [97] [1] none) [98] = none ∧
     delete_key (addOk (initStore 1) [97] [1] none) [98]
       = addOk (initStore 1) [97] [1] none) ∧
    (findIdx (addOk (initStore 1) [97] [1] none) [97] = some 0 ∧
     (delete_key (addOk (initStore 1) [97] [1] none) [97]).nitems = 0) :=
  ⟨⟨by decide, (delete_key_postcondition (addOk (initStore 1) [97] [1] none) [98]).1
       (by decide)⟩,
   ⟨by decide,
    ((delete_key_postcondition (addOk (initStore 1) [97] [1] none) [97]).2 0
       (by decide)).1.trans (by decide)⟩⟩

/-- One call of add_key: its three arguments. -/
structure AddOp where
  id : List Nat
  payload : List Nat
  comment : Option (List Nat)
  deriving Repr, DecidableEq

/-- A valid input triple in the sense of the interface contract: every
field within its bound, the identifier a genuine C string (no zero byte,
as PostgreSQL text guarantees), and the payload's full varlena
representation — including its length-prefix framing — fitting in the
fixed key field.  The last condition is the contract's own bound
(payload at most MAX_KEY_LENGTH - VARHDRSZ - 1 bytes); payloads of
1021..1023 bytes pass the code's validation but make the key memcpy
spill past the key field (the C2 bug), so they are not valid inputs. -/
def validOp (op : AddOp) : Prop :=
  op.id.length < MAX_ID_LENGTH ∧ (∀ b ∈ op.id, b ≠ 0) ∧
  op.payload.length < MAX_KEY_LENGTH ∧
  (varencode op.payload).length ≤ MAX_KEY_LENGTH ∧
  commentTooLong op.comment = false

instance (op : AddOp) : Decidable (validOp op) := by
  unfold validOp; infer_instance

/-- The record a successful add_key writes into a zeroed slot. -/
def freshItem (op : AddOp) : VaultItemData :=
  writeItem zeroItem op.id op.payload op.comment

/-- Run a sequence of add_key calls, stopping at the first error; the
flag is true when every call succeeded. -/
def addAll : VaultInfoData → List AddOp → VaultInfoData × Bool
  | v, [] => (v, true)
  | v, op :: ops =>
      match add_key v op.id op.payload op.comment with
      | (v', none) => addAll v' ops
      | (v', some _) => (v', false)

/-- A store of capacity n whose populated slots are exactly recs and
whose remaining slots are still in their zeroed initial state. -/
def cleanStoreOf (n : Nat) (recs : List VaultItemData) : VaultInfoData :=
  { maxitems := n, nitems := recs.length,
    items := recs ++ List.replicate (n - recs.length) zeroItem }

/-- cstring walks past a leading nonzero byte. -/
theorem cstring_cons (a : Nat) (l : List Nat) (ha : a ≠ 0) :
    cstring (a :: l) = a :: cstring l := by
  unfold cstring
  rw [List.takeWhile_cons, if_pos (decide_eq_true ha)]

/-- The C-string value of a zero-padded field is the written prefix. -/
theorem cstring_append_replicate (id : List Nat) (m : Nat)
    (h : ∀ b ∈ id, b ≠ 0) (hm : 0 < m) :
    cstring (id ++ List.replicate m 0) = id := by
  induction id with
  | nil =>
      cases m with
      | zero => omega
      | succ m => simp [cstring, List.replicate_succ]
  | cons a as ih =>
      have ha : a ≠ 0 := h a (by simp)
      rw [List.cons_append, cstring_cons a _ ha,
        ih (fun b hb => h b (by simp [hb]))]

/-- A record freshly written into a zeroed slot stores exactly the id
that was supplied. -/
theorem cstring_freshItem (op : AddOp) (h1 : op.id.length < MAX_ID_LENGTH)
    (h2 : ∀ b ∈ op.id, b ≠ 0) :
    cstring (freshItem op).id = op.id := by
  show cstring (memcpyField zeroItem.id op.id) = op.id
  show cstring (op.id ++ (List.replicate MAX_ID_LENGTH 0).drop op.id.length) = op.id
  rw [List.drop_replicate]
  exact cstring_append_replicate op.id _ h2 (by omega)

/-- getD at the length of the left part of an append hits the head of
the right part. -/
theorem getD_at_length (l1 l2 : List VaultItemData) (x d : VaultItemData) :
    (l1 ++ x :: l2).getD l1.length d = x := by
  induction l1 with
  | nil => rfl
  | cons a as ih => simp only [List.cons_append, List.length_cons, List.getD_cons_succ, ih]

/-- set at the length of the left part of an append replaces the head of
the right part. -/
theorem set_at_length (l1 l2 : List VaultItemData) (x y : VaultItemData) :
    (l1 ++ x :: l2).set l1.length y = l1 ++ y :: l2 := by
  induction l1 with
  | nil => rfl
  | cons a as ih => simp only [List.cons_append, List.length_cons, List.set_cons_succ, ih]

/-- One successful add_key on a clean store with spare capacity: the
fresh record is appended to the populated prefix, the spare slots stay
zeroed, and no error is reported. -/
theorem add_key_clean_step (n : Nat) (recs : List VaultItemData) (op : AddOp)
    (hn : recs.length < n) (hv : validOp op)
    (hfresh : ∀ it ∈ recs, cstring it.id ≠ op.id) :
    add_key (cleanStoreOf n recs) op.id op.payload op.comment =
      (cleanStoreOf n (recs ++ [freshItem op]), none) := by
  obtain ⟨h1, h2, h3, _, h4⟩ := hv
  have hany : recs.any (fun it => cstring it.id == op.id) = false := by
    rw [List.any_eq_false]
    intro it hit
    simpa using hfresh it hit
  have hfull : decide (n ≤ recs.length) = false := decide_eq_false (by omega)
  have hsplit : List.replicate (n - recs.length) zeroItem
      = zeroItem :: List.replicate (n - recs.length - 1) zeroItem := by
    conv_lhs => rw [show n - recs.length = (n - recs.length - 1) + 1 by omega]
    rw [List.replicate_succ]
  unfold add_key
  rw [if_neg (Nat.not_le.mpr h1)]
  rw [if_neg (show ¬ commentTooLong op.comment = true by simp [h4])]
  rw [if_neg (Nat.not_le.mpr h3)]
  simp only [cleanStoreOf]
  simp only [List.take_left, hany, hfull, Bool.not_false, Bool.and_self, if_true]
  rw [hsplit, getD_at_length, set_at_length]
  simp [freshItem, List.append_assoc, Nat.sub_sub]

/-- Running a sequence of valid adds with pairwise distinct identifiers,
none of which is already stored, on a clean store with enough spare
capacity: every add succeeds and the populated prefix grows by exactly
the fresh records, in order. -/
theorem addAll_clean (ops : List AddOp) : ∀ (n : Nat) (recs : List VaultItemData),
    recs.length + ops.length ≤ n →
    (∀ op ∈ ops, validOp op) →
    (ops.map AddOp.id).Pairwise (fun a b => a ≠ b) →
    (∀ op ∈ ops, ∀ it ∈ recs, cstring it.id ≠ op.id) →
    addAll (cleanStoreOf n recs) ops =
      (cleanStoreOf n (recs ++ ops.map freshItem), true) := by
  induction ops with
  | nil =>
      intro n recs _ _ _ _
      simp [addAll]
  | cons op ops ih =>
      intro n recs hlen hv hp hf
      have hvop : validOp op := hv op (by simp)
      have hstep := add_key_clean_step n recs op (by simp at hlen; omega) hvop
        (fun it hit => hf op (by simp) it hit)
      rw [List.map_cons] at hp
      have hp' := List.pairwise_cons.mp hp
      have hrec := ih n (recs ++ [freshItem op])
        (by simp at hlen ⊢; omega)
        (fun o ho => hv o (by simp [ho]))
        hp'.2
        (by
          intro o ho it hit
          rcases List.mem_append.mp hit with hin | hone
          · exact hf o (by simp [ho]) it hin
          · have : it = freshItem op := by simpa using hone
            rw [this, cstring_freshItem op hvop.1 hvop.2.1]
            exact hp'.1 o.id (List.mem_map_of_mem AddOp.id ho))
      calc addAll (cleanStoreOf n recs) (op :: ops)
          = addAll (cleanStoreOf n (recs ++ [freshItem op])) ops := by
            simp only [addAll, hstep]
        _ = (cleanStoreOf n ((recs ++ [freshItem op]) ++ ops.map freshItem), true) := hrec
        _ = (cleanStoreOf n (recs ++ (op :: ops).map freshItem), true) := by
            simp [List.append_assoc]

/-- add_key on a clean store whose populated prefix already fills the
capacity: the uniqueness scan passes, the capacity check fails, nothing
is written, and the vault-full error is reported. -/
theorem add_key_full (n : Nat) (recs : List VaultItemData) (op : AddOp)
    (hn : recs.length = n) (hv : validOp op)
    (hfresh : ∀ it ∈ recs, cstring it.id ≠ op.id) :
    add_key (cleanStoreOf n recs) op.id op.payload op.comment =
      (cleanStoreOf n recs, some AddError.vaultFull) := by
  obtain ⟨h1, h2, h3, _, h4⟩ := hv
  have hany : recs.any (fun it => cstring it.id == op.id) = false := by
    rw [List.any_eq_false]
    intro it hit
    simpa using hfresh it hit
  have hfull : decide (n ≤ recs.length) = true := decide_eq_true (by omega)
  unfold add_key
  rw [if_neg (Nat.not_le.mpr h1)]
  rw [if_neg (show ¬ commentTooLong op.comment = true by simp [h4])]
  rw [if_neg (Nat.not_le.mpr h3)]
  simp only [cleanStoreOf]
  simp only [List.take_left, hany, hfull, Bool.not_false, Bool.not_true,
    Bool.false_and, Bool.false_eq_true, if_false, if_true]

/-- C5: confirmed.  Starting from a freshly initialized store of capacity
n and performing n adds with valid inputs (each field within its bound,
the payload's full varlena representation fitting in the key field, as
the interface contract requires) and pairwise distinct identifiers,
every add succeeds and the count reaches n; one further add with a fresh
valid identifier fails with the vault-full (capacity exceeded) error and
leaves the store, in particular its count n, unchanged. -/
theorem add_to_capacity_then_capacity_exceeded (n : Nat) (ops : List AddOp)
    (extra : AddOp)
    (hlen : ops.length = n)
    (hv : ∀ op ∈ ops, validOp op)
    (hve : validOp extra)
    (hp : (ops.map AddOp.id).Pairwise (fun a b => a ≠ b))
    (hex : ∀ op ∈ ops, op.id ≠ extra.id) :
    ∃ w : VaultInfoData,
      addAll (initStore n) ops = (w, true) ∧
      w.nitems = n ∧
      add_key w extra.id extra.payload extra.comment = (w, some AddError.vaultFull) := by
  have hinit : initStore n = cleanStoreOf n [] := by
    simp [initStore, cleanStoreOf]
  have hall := addAll_clean ops n [] (by simp [hlen]) hv hp (by simp)
  refine ⟨cleanStoreOf n (ops.map freshItem), ?_, ?_, ?_⟩
  · rw [hinit]
    simpa using hall
  · simp [cleanStoreOf, hlen]
  · refine add_key_full n (ops.map freshItem) extra (by simp [hlen]) hve ?_
    intro it hit
    obtain ⟨op, hop, rfl⟩ := List.mem_map.mp hit
    rw [cstring_freshItem op (hv op hop).1 (hv op hop).2.1]
    exact hex op hop

/-- Witness for C5: capacity 1; the single add of identifier a succeeds
and fills the store, and a further add of the distinct valid identifier
b fails with the vault-full error, leaving the count at 1. -/
theorem add_to_capacity_witness :
    ([(⟨[97], [1], none⟩ : AddOp)].length = 1 ∧
     validOp (⟨[97], [1], none⟩ : AddOp) ∧
     validOp (⟨[98], [2], none⟩ : AddOp)) ∧
    ∃ w : VaultInfoData,
      addAll (initStore 1) [⟨[97], [1], none⟩] = (w, true) ∧
      w.nitems = 1 ∧
      add_key w [98] [2] none = (w, some AddError.vaultFull) :=
  ⟨⟨rfl, by decide, by decide⟩,
   add_to_capacity_then_capacity_exceeded 1 [⟨[97], [1], none⟩] ⟨[98], [2], none⟩
     rfl (by decide) (by decide) (by decide) (by decide)⟩
